import Mathlib

/-!
Verification development for the Ollama SDK (Rust).

This file shallowly embeds the parts of the SDK needed to settle the frozen
claims: the newline-delimited-JSON streaming parser
(`src/ollama-sdk/src/parser.rs`), the line classification chain, the tool
registry (`src/ollama-sdk/src/tools/registry.rs`), the tool-call collection
and dispatch logic of the streaming-chat example
(`src/ollama-sdk/examples/streaming_chat_tool_call.rs`), and the tool
dispatch of `src/src/client.rs`.

Stateful Rust code (methods taking `&mut self`) is embedded as explicit
state passing; fallible code returns `Except`.  Byte buffers are `List Nat`.
-/

namespace OllamaSpec

/-- Model of `serde_json::Value`.  JSON numbers are restricted to integers;
none of the payload fields relevant to the claims (strings, booleans,
objects, arrays) depend on floating point, and every concrete input used in
this development stays inside this fragment. -/
inductive Json where
  | null : Json
  | bool (b : Bool) : Json
  | num (n : Int) : Json
  | str (s : String) : Json
  | arr (elems : List Json) : Json
  | obj (members : List (String × Json)) : Json
deriving Repr

/-- The left-brace character, written via its code point. -/
def lbrace : Char := Char.ofNat 123

/-- The right-brace character, written via its code point. -/
def rbrace : Char := Char.ofNat 125

/-- Skip JSON insignificant whitespace (space, tab, newline, carriage
return), as `serde_json` does between tokens. -/
def skipWs : List Char → List Char
  | [] => []
  | c :: cs => if c = ' ' ∨ c = '\t' ∨ c = '\n' ∨ c = '\r' then skipWs cs else c :: cs

/-- Parse the body of a JSON string literal (the opening quote already
consumed), handling the simple escapes.  `\u` escapes are outside the
modelled fragment and fail. -/
def parseStringBody : Nat → List Char → Except String (String × List Char)
  | 0, _ => .error "recursion limit exceeded"
  | _ + 1, [] => .error "unterminated string"
  | fuel + 1, c :: cs =>
    if c = '"' then .ok ("", cs)
    else if c = '\\' then
      match cs with
      | [] => .error "unterminated string"
      | e :: cs2 =>
        let dec : Except String Char :=
          if e = '"' then .ok '"'
          else if e = '\\' then .ok '\\'
          else if e = '/' then .ok '/'
          else if e = 'n' then .ok '\n'
          else if e = 't' then .ok '\t'
          else if e = 'r' then .ok '\r'
          else .error "unsupported escape"
        match dec with
        | .error msg => .error msg
        | .ok ch =>
          match parseStringBody fuel cs2 with
          | .ok (rest, rem) => .ok (String.mk (ch :: rest.toList), rem)
          | .error msg => .error msg
    else
      match parseStringBody fuel cs with
      | .ok (rest, rem) => .ok (String.mk (c :: rest.toList), rem)
      | .error msg => .error msg

/-- Collect a run of decimal digits. -/
def takeDigits : List Char → List Char × List Char
  | [] => ([], [])
  | c :: cs =>
    if c.isDigit then
      let (ds, rem) := takeDigits cs
      (c :: ds, rem)
    else ([], c :: cs)

/-- Fold digits into a natural number. -/
def digitsToNat (ds : List Char) : Nat :=
  ds.foldl (fun acc c => acc * 10 + (c.toNat - '0'.toNat)) 0

/-- Parse a JSON number.  Only integer literals are in the modelled
fragment; fractions and exponents fail. -/
def parseNumber (s : List Char) : Except String (Json × List Char) :=
  let (neg, s1) := match s with
    | '-' :: rest => (true, rest)
    | _ => (false, s)
  match takeDigits s1 with
  | ([], _) => .error "expected value"
  | (ds, rem) =>
    match rem with
    | '.' :: _ => .error "unsupported number"
    | 'e' :: _ => .error "unsupported number"
    | 'E' :: _ => .error "unsupported number"
    | _ =>
      let n : Int := Int.ofNat (digitsToNat ds)
      .ok (Json.num (if neg then -n else n), rem)

mutual

/-- Parse one JSON value, consuming leading whitespace.  Models
`serde_json` value parsing on the integer fragment.  `fuel` bounds the
recursion depth; `parseJson` supplies more fuel than any input can use. -/
def parseValue : Nat → List Char → Except String (Json × List Char)
  | 0, _ => .error "recursion limit exceeded"
  | fuel + 1, s =>
    match skipWs s with
    | [] => .error "unexpected end of input"
    | c :: cs =>
      if c = '"' then
        match parseStringBody (cs.length + 1) cs with
        | .ok (str, rem) => .ok (Json.str str, rem)
        | .error msg => .error msg
      else if c = lbrace then
        match skipWs cs with
        | c2 :: cs2 =>
          if c2 = rbrace then .ok (Json.obj [], cs2)
          else
            match parseMember fuel (c2 :: cs2) with
            | .ok (kv, rem) =>
              match parseObjRest fuel rem with
              | .ok (kvs, rem2) => .ok (Json.obj (kv :: kvs), rem2)
              | .error msg => .error msg
            | .error msg => .error msg
        | [] => .error "unexpected end of input"
      else if c = '[' then
        match skipWs cs with
        | c2 :: cs2 =>
          if c2 = ']' then .ok (Json.arr [], cs2)
          else
            match parseValue fuel (c2 :: cs2) with
            | .ok (v, rem) =>
              match parseArrayRest fuel rem with
              | .ok (vs, rem2) => .ok (Json.arr (v :: vs), rem2)
              | .error msg => .error msg
            | .error msg => .error msg
        | [] => .error "unexpected end of input"
      else if c = 't' then
        if (c :: cs).take 4 = "true".toList then .ok (Json.bool true, (c :: cs).drop 4)
        else .error "expected value"
      else if c = 'f' then
        if (c :: cs).take 5 = "false".toList then .ok (Json.bool false, (c :: cs).drop 5)
        else .error "expected value"
      else if c = 'n' then
        if (c :: cs).take 4 = "null".toList then .ok (Json.null, (c :: cs).drop 4)
        else .error "expected value"
      else if c = '-' ∨ c.isDigit then parseNumber (c :: cs)
      else .error "expected value"

/-- Parse the remaining elements of a JSON array after the first one. -/
def parseArrayRest : Nat → List Char → Except String (List Json × List Char)
  | 0, _ => .error "recursion limit exceeded"
  | fuel + 1, s =>
    match skipWs s with
    | ',' :: cs =>
      match parseValue fuel cs with
      | .ok (v, rem) =>
        match parseArrayRest fuel rem with
        | .ok (vs, rem2) => .ok (v :: vs, rem2)
        | .error msg => .error msg
      | .error msg => .error msg
    | c :: cs =>
      if c = ']' then .ok ([], cs) else .error "expected comma or bracket"
    | [] => .error "unexpected end of input"

/-- Parse one `"key": value` member of a JSON object. -/
def parseMember : Nat → List Char → Except String ((String × Json) × List Char)
  | 0, _ => .error "recursion limit exceeded"
  | fuel + 1, s =>
    match skipWs s with
    | '"' :: cs =>
      match parseStringBody (cs.length + 1) cs with
      | .ok (key, rem) =>
        match skipWs rem with
        | ':' :: rem2 =>
          match parseValue fuel rem2 with
          | .ok (v, rem3) => .ok ((key, v), rem3)
          | .error msg => .error msg
        | _ => .error "expected colon"
      | .error msg => .error msg
    | _ => .error "key must be a string"

/-- Parse the remaining members of a JSON object after the first one. -/
def parseObjRest : Nat → List Char → Except String (List (String × Json) × List Char)
  | 0, _ => .error "recursion limit exceeded"
  | fuel + 1, s =>
    match skipWs s with
    | ',' :: cs =>
      match parseMember fuel cs with
      | .ok (kv, rem) =>
        match parseObjRest fuel rem with
        | .ok (kvs, rem2) => .ok (kv :: kvs, rem2)
        | .error msg => .error msg
      | .error msg => .error msg
    | c :: cs =>
      if c = rbrace then .ok ([], cs) else .error "expected comma or brace"
    | [] => .error "unexpected end of input"

end

/-- Model of `serde_json::from_str` up to the `Value` level: parse one JSON
value and require that only whitespace follows it. -/
def parseJson (s : String) : Except String Json :=
  match parseValue (2 * s.length + 16) s.toList with
  | .ok (v, rest) =>
    if skipWs rest = [] then .ok v else .error "trailing characters"
  | .error msg => .error msg

/-!
Chat data model, from `src/ollama-sdk/src/types/shared.rs` and
`src/ollama-sdk/src/types/chat.rs`, together with models of the derived
`serde` deserializers.  Per `serde` derive semantics, unknown fields are
ignored, fields are required unless marked `#[serde(default)]` or of
`Option` type, and a present field of the wrong shape is an error.
-/

/-- Rust `Role`, from `src/ollama-sdk/src/types/shared.rs` (serialized in
lowercase). -/
inductive Role where
  | System : Role
  | User : Role
  | Assistant : Role
  | Tool : Role
deriving Repr, DecidableEq

/-- Rust `FunctionInvocation`, from `src/ollama-sdk/src/types/chat.rs`. -/
structure FunctionInvocation where
  index : Option Nat
  name : String
  arguments : Json
deriving Repr

/-- Rust `ToolCall`, from `src/ollama-sdk/src/types/chat.rs`. -/
structure ToolCall where
  id : String
  function : FunctionInvocation
deriving Repr

/-- Rust `ChatResponseMessage`, from `src/ollama-sdk/src/types/chat.rs`. -/
structure ChatResponseMessage where
  role : Role
  content : String
  thinking : String
  tool_calls : List ToolCall
deriving Repr

/-- Rust `ChatResponse`, from `src/ollama-sdk/src/types/chat.rs`. -/
structure ChatResponse where
  model : String
  created_at : String
  message : ChatResponseMessage
  done : Bool
deriving Repr

/-- Rust `OllamaError`, the minimal server error envelope, from
`src/ollama-sdk/src/types/shared.rs`. -/
structure OllamaError where
  error : String
deriving Repr, DecidableEq

/-- Rust `ChatStreamEvent`, from `src/ollama-sdk/src/types/chat.rs`.  The third
constructor models `ChatStreamEvent::Partial \x7b partial, error \x7d`. -/
inductive ChatStreamEvent where
  | Message (response : ChatResponse) : ChatStreamEvent
  | Error (err : String) : ChatStreamEvent
  | Partial (text : String) (diag : Option String) : ChatStreamEvent
deriving Repr

/-- Look a field up in a decoded JSON object (first occurrence). -/
def getField (members : List (String × Json)) (key : String) : Option Json :=
  List.lookup key members

/-- A field required by a derived deserializer: missing is an error. -/
def reqField (members : List (String × Json)) (key : String) : Except String Json :=
  match getField members key with
  | some v => .ok v
  | none => .error ("missing field " ++ key)

/-- Decode a JSON string. -/
def asString : Json → Except String String
  | .str s => .ok s
  | _ => .error "invalid type: expected a string"

/-- Decode a JSON boolean. -/
def asBool : Json → Except String Bool
  | .bool b => .ok b
  | _ => .error "invalid type: expected a boolean"

/-- Deserializer for `Role` (`#[serde(rename_all = "lowercase")]`). -/
def decodeRole : Json → Except String Role
  | .str "system" => .ok Role.System
  | .str "user" => .ok Role.User
  | .str "assistant" => .ok Role.Assistant
  | .str "tool" => .ok Role.Tool
  | _ => .error "unknown variant of Role"

/-- Deserializer for `FunctionInvocation`: `index` is `Option<usize>`
(missing or null means `None`); `name` and `arguments` are required,
`arguments` being an arbitrary `serde_json::Value`. -/
def decodeFunctionInvocation : Json → Except String FunctionInvocation
  | .obj members => do
    let index ← match getField members "index" with
      | none => pure (Option.none (α := Nat))
      | some Json.null => pure none
      | some (Json.num n) =>
        if 0 ≤ n then pure (some n.toNat) else Except.error "invalid value: negative integer"
      | some _ => Except.error "invalid type: expected an integer"
    let name ← asString (← reqField members "name")
    let arguments ← reqField members "arguments"
    pure { index := index, name := name, arguments := arguments }
  | _ => .error "invalid type: expected a map"

/-- Deserializer for `ToolCall`: both `id` and `function` are required. -/
def decodeToolCall : Json → Except String ToolCall
  | .obj members => do
    let id ← asString (← reqField members "id")
    let function ← decodeFunctionInvocation (← reqField members "function")
    pure { id := id, function := function }
  | _ => .error "invalid type: expected a map"

/-- Deserializer for a `Vec<ToolCall>` field. -/
def decodeToolCalls : Json → Except String (List ToolCall)
  | .arr elems => elems.mapM decodeToolCall
  | _ => .error "invalid type: expected an array"

/-- Deserializer for `ChatResponseMessage`: `role` and `content` are
required, `thinking` and `tool_calls` are `#[serde(default)]`. -/
def decodeChatResponseMessage : Json → Except String ChatResponseMessage
  | .obj members => do
    let role ← decodeRole (← reqField members "role")
    let content ← asString (← reqField members "content")
    let thinking ← match getField members "thinking" with
      | none => pure ""
      | some v => asString v
    let tool_calls ← match getField members "tool_calls" with
      | none => pure ([] : List ToolCall)
      | some v => decodeToolCalls v
    pure { role := role, content := content, thinking := thinking, tool_calls := tool_calls }
  | _ => .error "invalid type: expected a map"

/-- Deserializer for `ChatResponse`: `model`, `message` and `done` are
required, `created_at` is `#[serde(default)]`. -/
def decodeChatResponse : Json → Except String ChatResponse
  | .obj members => do
    let model ← asString (← reqField members "model")
    let created_at ← match getField members "created_at" with
      | none => pure ""
      | some v => asString v
    let message ← decodeChatResponseMessage (← reqField members "message")
    let done ← asBool (← reqField members "done")
    pure { model := model, created_at := created_at, message := message, done := done }
  | _ => .error "invalid type: expected a map"

/-- Deserializer for `OllamaError`: the single field `error` is required. -/
def decodeOllamaError : Json → Except String OllamaError
  | .obj members => do
    let error ← asString (← reqField members "error")
    pure { error := error }
  | _ => .error "invalid type: expected a map"

/-- Model of `serde_json::from_str::<ChatResponse>` on one line. -/
def decodeChatResponseLine (line_str : String) : Except String ChatResponse :=
  (parseJson line_str).bind decodeChatResponse

/-- Model of `serde_json::from_str::<OllamaError>` on one line. -/
def decodeOllamaErrorLine (line_str : String) : Except String OllamaError :=
  (parseJson line_str).bind decodeOllamaError

/-- The per-line classification chain of
`GenericStreamParser::parse_lines` (`src/ollama-sdk/src/parser.rs`,
lines 76-92), instantiated at the chat endpoint (`M = ChatResponse`,
`E = ChatStreamEvent`): first try the expected message type, then the
error envelope, and fall back to a partial event carrying the line and the
message-decode failure. -/
def classifyLine (line_str : String) : ChatStreamEvent :=
  match decodeChatResponseLine line_str with
  | .ok msg => ChatStreamEvent.Message msg
  | .error e_msg =>
    match decodeOllamaErrorLine line_str with
    | .ok err => ChatStreamEvent.Error err.error
    | .error _ => ChatStreamEvent.Partial line_str (some e_msg)

/-!
Frame decoder, from `GenericStreamParser` (`src/ollama-sdk/src/parser.rs`).
The internal `Vec<u8>` buffer is a `List Nat`; lines are delimited by the
byte 10.
-/

/-- The replacement character `U+FFFD` used by `String::from_utf8_lossy`. -/
def replacementChar : Char := Char.ofNat 0xFFFD

/-- Whether a byte is a UTF-8 continuation byte. -/
def isContByte (b : Nat) : Bool := 0x80 ≤ b ∧ b ≤ 0xBF

/-- Worker for `utf8Lossy`; `fuel` bounds recursion (each step consumes at
least one byte). -/
def utf8LossyAux : Nat → List Nat → List Char
  | 0, _ => []
  | _ + 1, [] => []
  | fuel + 1, b :: bs =>
    if b < 0x80 then Char.ofNat b :: utf8LossyAux fuel bs
    else if 0xC2 ≤ b ∧ b ≤ 0xDF then
      match bs with
      | b2 :: bs2 =>
        if isContByte b2 then
          Char.ofNat ((b - 0xC0) * 0x40 + (b2 - 0x80)) :: utf8LossyAux fuel bs2
        else replacementChar :: utf8LossyAux fuel bs
      | [] => [replacementChar]
    else if 0xE0 ≤ b ∧ b ≤ 0xEF then
      match bs with
      | b2 :: b3 :: bs3 =>
        if isContByte b2 ∧ isContByte b3 then
          Char.ofNat ((b - 0xE0) * 0x1000 + (b2 - 0x80) * 0x40 + (b3 - 0x80)) ::
            utf8LossyAux fuel bs3
        else replacementChar :: utf8LossyAux fuel bs
      | _ => [replacementChar]
    else if 0xF0 ≤ b ∧ b ≤ 0xF4 then
      match bs with
      | b2 :: b3 :: b4 :: bs4 =>
        if isContByte b2 ∧ isContByte b3 ∧ isContByte b4 then
          Char.ofNat
              ((b - 0xF0) * 0x40000 + (b2 - 0x80) * 0x1000 + (b3 - 0x80) * 0x40 + (b4 - 0x80)) ::
            utf8LossyAux fuel bs4
        else replacementChar :: utf8LossyAux fuel bs
      | _ => [replacementChar]
    else replacementChar :: utf8LossyAux fuel bs

/-- Model of `String::from_utf8_lossy`: decode UTF-8, substituting
`U+FFFD` for ill-formed sequences.  On ill-formed input the exact grouping
of replacement characters is approximated (no claim depends on non-UTF-8
bytes); on well-formed input, in particular all ASCII, it is exact. -/
def utf8Lossy (bytes : List Nat) : String :=
  String.mk (utf8LossyAux bytes.length bytes)

/-- Prepend a non-newline byte to an already line-split byte sequence: it
extends the first complete line when one exists, otherwise the trailing
remainder. -/
def consByte (b : Nat) : List (List Nat) × List Nat → List (List Nat) × List Nat
  | ([], rem) => ([], b :: rem)
  | (l :: ls, rem) => ((b :: l) :: ls, rem)

/-- Split a byte sequence into its complete newline-terminated lines (the
newline bytes themselves are dropped) and the trailing remainder after the
last newline.  This is the cumulative effect of the
`buffer.drain(..=newline_pos)` loop of `parse_lines`
(`src/ollama-sdk/src/parser.rs`, lines 64-74). -/
def splitLines : List Nat → List (List Nat) × List Nat
  | [] => ([], [])
  | b :: bs =>
    if b = 10 then ([] :: (splitLines bs).1, (splitLines bs).2)
    else consByte b (splitLines bs)

/-- The event sequence drained from `GenericStreamParser::poll_next`
(`src/ollama-sdk/src/parser.rs`, lines 106-153) when the byte source
yields `chunks` and then ends.  Each arriving chunk is appended to the
buffer, every line completed by it is classified in order (`lineEvent`
returns `none` for lines that are skipped, i.e. blank ones), and at end of
input a non-empty buffer is flushed through `flushEvent` (zero or one
terminal event) while an empty buffer ends the stream directly.  The event
constructors are kept abstract so the decoder logic can be stated for any
endpoint instantiation. -/
def runChunks {E : Type} (lineEvent : List Nat → Option E) (flushEvent : List Nat → Option E) :
    List Nat → List (List Nat) → List E
  | buffer, [] => if buffer.isEmpty then [] else (flushEvent buffer).toList
  | buffer, chunk :: chunks =>
    (splitLines (buffer ++ chunk)).1.filterMap lineEvent ++
      runChunks lineEvent flushEvent (splitLines (buffer ++ chunk)).2 chunks

/-- The event sequence obtained from the whole input in one piece: the
classified complete lines followed by the flush of the remainder. -/
def runAll {E : Type} (lineEvent : List Nat → Option E) (flushEvent : List Nat → Option E)
    (input : List Nat) : List E :=
  (splitLines input).1.filterMap lineEvent ++
    (if (splitLines input).2.isEmpty then [] else (flushEvent (splitLines input).2).toList)

/-- Whether a character is trimmed by `str::trim` (ASCII fragment: space,
tab, newline, carriage return; the full Rust function also trims other
Unicode whitespace, which no claim or input here involves). -/
def isTrimmed (c : Char) : Bool := c = ' ' ∨ c = '\t' ∨ c = '\n' ∨ c = '\r'

/-- Model of Rust's `str::trim`: drop whitespace from both ends. -/
def strTrim (s : String) : String :=
  String.mk (((s.toList.dropWhile isTrimmed).reverse.dropWhile isTrimmed).reverse)

/-- Line handling of `parse_lines` at the chat endpoint: decode the line
bytes (lossily), trim, skip blank lines, classify the rest. -/
def chatLineEvent (line_bytes : List Nat) : Option ChatStreamEvent :=
  let line_str := strTrim (utf8Lossy line_bytes)
  if line_str.isEmpty then none else some (classifyLine line_str)

/-- End-of-input flush of `poll_next` (`src/ollama-sdk/src/parser.rs`,
lines 140-148): the residual buffer is decoded untrimmed; a blank residue
yields nothing, otherwise one `Partial` event carrying the residue. -/
def chatFlushEvent (buffer : List Nat) : Option ChatStreamEvent :=
  let content := utf8Lossy buffer
  if ¬ (strTrim content).isEmpty then some (ChatStreamEvent.Partial content none) else none

/-!
Tool registry, from `src/ollama-sdk/src/tools/registry.rs`.  A `DynTool`
is a named capability handle; its behaviour is irrelevant to the registry,
so it is modelled by its name plus an opaque identity tag distinguishing
different handles with equal names.  The `HashMap<String, DynTool>` is
modelled as an association list with unique keys; `insert` replaces an
existing binding and returns the previous value, `remove` returns the
removed value, exactly as `std::collections::HashMap`.
-/

/-- A `DynTool` handle: its registered name plus an identity tag. -/
structure ToolModel where
  name : String
  implId : Nat
deriving Repr, DecidableEq

/-- Model of `HashMap::insert`: returns the replaced value (if any) and the updated
map. -/
def hmInsert : List (String × ToolModel) → String → ToolModel →
    Option ToolModel × List (String × ToolModel)
  | [], key, v => (none, [(key, v)])
  | (k, w) :: rest, key, v =>
    if k = key then (some w, (key, v) :: rest)
    else
      let (old, rest2) := hmInsert rest key v
      (old, (k, w) :: rest2)

/-- Model of `HashMap::remove`: returns the removed value (if any) and the updated
map. -/
def hmRemove : List (String × ToolModel) → String →
    Option ToolModel × List (String × ToolModel)
  | [], _ => (none, [])
  | (k, w) :: rest, key =>
    if k = key then (some w, rest)
    else
      let (old, rest2) := hmRemove rest key
      (old, (k, w) :: rest2)

/-- The `ToolRegistry` state: the map behind the `Arc`.  `&mut self` methods
are embedded as state passing, returning the updated registry together
with the Rust `Result`. -/
structure ToolRegistry where
  tools : List (String × ToolModel)
deriving Repr, DecidableEq

/-- Method `ToolRegistry::register_tool` (`src/ollama-sdk/src/tools/registry.rs`,
lines 31-41): insert the tool under its name, then report an error if the
insertion replaced an existing entry. -/
def ToolRegistry.register_tool (self : ToolRegistry) (tool : ToolModel) :
    ToolRegistry × Except String Unit :=
  let tool_name := tool.name
  let (old, tools2) := hmInsert self.tools tool_name tool
  (⟨tools2⟩,
    if old.isSome then
      Except.error ("Tool with name '" ++ tool_name ++ "' already registered")
    else Except.ok ())

/-- Method `ToolRegistry::unregister_tool` (`src/ollama-sdk/src/tools/registry.rs`,
lines 52-61). -/
def ToolRegistry.unregister_tool (self : ToolRegistry) (name : String) :
    ToolRegistry × Except String Unit :=
  let (old, tools2) := hmRemove self.tools name
  (⟨tools2⟩,
    if old.isNone then Except.error ("Tool with name '" ++ name ++ "' not found")
    else Except.ok ())

/-- Method `ToolRegistry::get_tool` (`src/ollama-sdk/src/tools/registry.rs`,
lines 72-74). -/
def ToolRegistry.get_tool (self : ToolRegistry) (name : String) : Option ToolModel :=
  List.lookup name self.tools

/-!
Sharing model for `ToolRegistry`'s `Arc<HashMap<..>>` field.  To state the
isolation property between clones, the `Arc` is made explicit: a heap of
map cells with strong counts, handles being cell indices.  `Clone`
increments the count; `Arc::make_mut` (used by `register_tool` and
`unregister_tool`) mutates in place when the count is 1 and otherwise
copies the contents into a fresh cell, decrementing the shared cell's
count — the copy-on-write semantics of `std::sync::Arc`.
-/

/-- The heap of `Arc` cells: contents and strong counts, indexed in
parallel. -/
structure ArcRegState where
  cells : List (List (String × ToolModel))
  counts : List Nat
deriving Repr, DecidableEq

/-- A `ToolRegistry` value as held by a caller: a handle to an `Arc`
cell. -/
structure RegHandle where
  ptr : Nat
deriving Repr, DecidableEq

/-- Model of `Clone for ToolRegistry`: clone the `Arc`, bumping its strong count. -/
def cloneHandle (st : ArcRegState) (h : RegHandle) : ArcRegState × RegHandle :=
  ({ st with counts := st.counts.set h.ptr (st.counts.getD h.ptr 0 + 1) }, ⟨h.ptr⟩)

/-- Model of `Arc::make_mut`: with strong count 1 the cell is mutated in place;
otherwise the contents are copied to a fresh cell (strong count 1) and the
old cell's count is decremented. -/
def makeMut (st : ArcRegState) (h : RegHandle) : ArcRegState × RegHandle :=
  if st.counts.getD h.ptr 0 ≤ 1 then (st, h)
  else
    ({ cells := st.cells ++ [st.cells.getD h.ptr []],
       counts := st.counts.set h.ptr (st.counts.getD h.ptr 0 - 1) ++ [1] },
      ⟨st.cells.length⟩)

/-- Method `ToolRegistry::register_tool` through a shared handle: `Arc::make_mut`
then the insert-and-check of lines 31-41. -/
def registerToolArc (st : ArcRegState) (h : RegHandle) (tool : ToolModel) :
    ArcRegState × RegHandle × Except String Unit :=
  let (st1, h1) := makeMut st h
  let (old, tools2) := hmInsert (st1.cells.getD h1.ptr []) tool.name tool
  ({ st1 with cells := st1.cells.set h1.ptr tools2 }, h1,
    if old.isSome then
      Except.error ("Tool with name '" ++ tool.name ++ "' already registered")
    else Except.ok ())

/-- Method `ToolRegistry::unregister_tool` through a shared handle. -/
def unregisterToolArc (st : ArcRegState) (h : RegHandle) (name : String) :
    ArcRegState × RegHandle × Except String Unit :=
  let (st1, h1) := makeMut st h
  let (old, tools2) := hmRemove (st1.cells.getD h1.ptr []) name
  ({ st1 with cells := st1.cells.set h1.ptr tools2 }, h1,
    if old.isNone then Except.error ("Tool with name '" ++ name ++ "' not found")
    else Except.ok ())

/-- Method `ToolRegistry::get_tool` through a shared handle (a read of the shared
cell). -/
def getToolArc (st : ArcRegState) (h : RegHandle) (name : String) : Option ToolModel :=
  List.lookup name (st.cells.getD h.ptr [])

/-!
Conversation loop of the streaming-chat example
(`src/ollama-sdk/examples/streaming_chat_tool_call.rs`).
-/

/-- The opening brace as a one-character string. -/
def lbraceS : String := String.singleton lbrace

/-- The closing brace as a one-character string. -/
def rbraceS : String := String.singleton rbrace

/-- Escape one character for a JSON string literal. -/
def escapeChar (c : Char) : String :=
  if c = '"' then "\\\""
  else if c = '\\' then "\\\\"
  else if c = '\n' then "\\n"
  else if c = '\t' then "\\t"
  else if c = '\r' then "\\r"
  else String.singleton c

/-- Escape a string for a JSON string literal. -/
def escapeString (s : String) : String :=
  String.join (s.toList.map escapeChar)

mutual

/-- Model of `serde_json::to_string` (compact serialization) on the
modelled `Json` fragment. -/
def jsonToString : Json → String
  | .null => "null"
  | .bool true => "true"
  | .bool false => "false"
  | .num n => toString n
  | .str s => "\"" ++ escapeString s ++ "\""
  | .arr [] => "[]"
  | .arr (e :: es) => "[" ++ jsonToString e ++ jsonListToString es ++ "]"
  | .obj [] => lbraceS ++ rbraceS
  | .obj (m :: ms) =>
    lbraceS ++ "\"" ++ escapeString m.1 ++ "\":" ++ jsonToString m.2 ++
      jsonMembersToString ms ++ rbraceS

/-- Serialize the remaining elements of an array, each preceded by a
comma. -/
def jsonListToString : List Json → String
  | [] => ""
  | e :: es => "," ++ jsonToString e ++ jsonListToString es

/-- Serialize the remaining members of an object, each preceded by a
comma. -/
def jsonMembersToString : List (String × Json) → String
  | [] => ""
  | m :: ms => ",\"" ++ escapeString m.1 ++ "\":" ++ jsonToString m.2 ++ jsonMembersToString ms

end

/-- The tool-call collection state of one turn of the example's loop
(`streaming_chat_tool_call.rs`, lines 132-134): the calls collected so far
in encounter order, and the set of ids already seen. -/
structure CollectState where
  message_tool_calls : List ToolCall
  seen_tool_call_ids : List String
deriving Repr

/-- The collection loop of `streaming_chat_tool_call.rs`, lines 152-172,
run over the concatenated tool-call fragments of one assistant turn (in
stream order, across chunks): `seen_tool_call_ids.insert` reports whether
the id is new; only then is the fragment pushed onto
`message_tool_calls`, otherwise it is ignored. -/
def collectToolCalls : CollectState → List ToolCall → CollectState
  | st, [] => st
  | st, tool_call :: rest =>
    if st.seen_tool_call_ids.contains tool_call.id then collectToolCalls st rest
    else
      collectToolCalls
        { message_tool_calls := st.message_tool_calls ++ [tool_call],
          seen_tool_call_ids := tool_call.id :: st.seen_tool_call_ids } rest

/-- The calls collected from the fragments of one turn, starting from the
empty per-turn state. -/
def collectedCalls (fragments : List ToolCall) : List ToolCall :=
  (collectToolCalls { message_tool_calls := [], seen_tool_call_ids := [] }
      fragments).message_tool_calls

/-- A history entry (`ChatRequestMessage` from
`src/ollama-sdk/src/types/chat.rs`, restricted to the fields the example
writes). -/
inductive ChatRequestMessageM where
  | Message (role : Role) (content : String) : ChatRequestMessageM
  | ToolCallResult (name : String) (content : String) (tool_call_id : String) : ChatRequestMessageM
deriving Repr, DecidableEq

/-- Whether a history entry is a tool-call result message. -/
def isToolCallResult : ChatRequestMessageM → Bool
  | .ToolCallResult _ _ _ => true
  | _ => false

/-- The dispatch loop of `streaming_chat_tool_call.rs`, lines 191-253:
iterate over the collected calls, and for the current call either invoke
the mapped tool (appending a result or error `ToolCallResult` message) or
append a `not found` message — and in all three branches `break` out of
the loop after the first iteration.  The tool map entry is the tool's
behaviour (`Tool::call` with the context elided: the example passes a
fresh cancellation token that nothing triggers); its error value is the
displayed message of the returned `Error`.  The returned flag is
`tool_was_called`. -/
def dispatchFirstLoop (history : List ChatRequestMessageM)
    (tool_map : List (String × (Json → Except String Json))) :
    List ToolCall → List ChatRequestMessageM × Bool
  | [] => (history, false)
  | call :: _ =>
    let tool_name := call.function.name
    let tool_call_id := call.id
    let params := call.function.arguments
    match List.lookup tool_name tool_map with
    | some tool =>
      match tool params with
      | .ok tool_result =>
        (history ++
            [ChatRequestMessageM.ToolCallResult tool_name (jsonToString tool_result) call.id],
          true)
      | .error e =>
        (history ++
            [ChatRequestMessageM.ToolCallResult tool_name ("Tool invocation error: " ++ e)
                tool_call_id],
          true)
    | none =>
      (history ++
          [ChatRequestMessageM.ToolCallResult tool_name ("Tool '" ++ tool_name ++ "' not found")
              tool_call_id],
        true)

/-- The `response.done` branch of the example (lines 176-257): append the
accumulated assistant message to history; if no tool calls were collected
the program returns (flag `false`), otherwise run the dispatch loop.  A
`true` flag makes the outer loop resend the grown history. -/
def handleDone (history : List ChatRequestMessageM) (assistant_buffer : String)
    (message_tool_calls : List ToolCall)
    (tool_map : List (String × (Json → Except String Json))) :
    List ChatRequestMessageM × Bool :=
  let history1 := history ++ [ChatRequestMessageM.Message Role.Assistant assistant_buffer]
  if message_tool_calls.isEmpty then (history1, false)
  else dispatchFirstLoop history1 tool_map message_tool_calls

/-!
Tool dispatch of `OllamaClient::chat_stream` (`src/src/client.rs`,
lines 81-124).  The spawned task looks the tool up in the registry and
produces exactly one result value: the tool's output, an error envelope
for a tool failure, a timeout envelope when the deadline elapsed first, or
a not-found envelope without invoking anything.  The asynchronous race
`timeout(max_tool_runtime, tool.call(..))` is represented by its outcome:
either the call completed within the deadline (with the tool's `Result`)
or the timer won.  The `Duration` is kept as its `\x7b:?\x7d`-formatted
text, which is how it reaches the message. -/
inductive ToolInvocationOutcome where
  | completed (result : Except String Json) : ToolInvocationOutcome
  | timedOut : ToolInvocationOutcome

/-- The result value computed by the dispatch task of
`src/src/client.rs`, lines 85-113 (`tool_result`). -/
def dispatchToolCall (registry : ToolRegistry) (name : String) (max_tool_runtime : String)
    (outcome : ToolInvocationOutcome) : Json :=
  match registry.get_tool name with
  | some _tool =>
    match outcome with
    | .completed (.ok result) => result
    | .completed (.error e) => Json.obj [("error", Json.str e)]
    | .timedOut =>
      Json.obj
        [("error", Json.str ("Tool '" ++ name ++ "' timed out after " ++ max_tool_runtime))]
  | none => Json.obj [("error", Json.str ("Tool '" ++ name ++ "' not found"))]

/-!
Theorems.  Helper lemmas come first; each claim is settled by exactly one
named theorem (plus, where needed, a witness or a counterexample).
-/

/-- Setting the freshly appended slot of a list leaves every earlier slot
unchanged. -/
theorem getD_set_append {α : Type} (l : List α) (x y : α) (p : Nat) (hp : p < l.length)
    (d : α) : ((l ++ [x]).set l.length y).getD p d = l.getD p d := by
  induction l generalizing p with
  | nil => simp at hp
  | cons a l' ih =>
    cases p with
    | zero => simp
    | succ p' =>
      have hp' : p' < l'.length := by simpa using hp
      simpa using ih p' hp'

/-- After `makeMut` on a cell with strong count at least 2 and a write to
the resulting cell, the original cell's contents are unchanged.  Worker
for the copy-on-write isolation claim. -/
theorem cells_unchanged_of_shared (st : ArcRegState) (h : RegHandle)
    (tools2 : List (String × ToolModel)) (hvalid : h.ptr < st.cells.length)
    (hshared : 2 ≤ st.counts.getD h.ptr 0) (p : Nat) (hp : p = h.ptr) :
    (((makeMut st h).1.cells.set (makeMut st h).2.ptr tools2).getD p []) =
      st.cells.getD p [] := by
  have hif : ¬ st.counts.getD h.ptr 0 ≤ 1 := by omega
  subst hp
  simp only [makeMut, hif, if_false]
  exact getD_set_append st.cells _ tools2 h.ptr hvalid []

/-- C10: mutating a `ToolRegistry` through one handle is invisible through
a previously obtained clone: after `register_tool` or `unregister_tool`
through handle `h1`, every `get_tool` lookup through the clone `h2`
returns what it returned before.  `Arc::make_mut` copies the shared map
into a fresh cell, so the clone keeps reading the untouched original. -/
theorem c10_cow_isolation (st : ArcRegState) (h1 h2 : RegHandle) (tool : ToolModel)
    (name key : String) (hclone : h2.ptr = h1.ptr) (hvalid : h1.ptr < st.cells.length)
    (hshared : 2 ≤ st.counts.getD h1.ptr 0) :
    getToolArc (registerToolArc st h1 tool).1 h2 key = getToolArc st h2 key ∧
    getToolArc (unregisterToolArc st h1 name).1 h2 key = getToolArc st h2 key := by
  constructor
  · show List.lookup key ((registerToolArc st h1 tool).1.cells.getD h2.ptr []) = _
    rw [registerToolArc]
    simp only
    rw [cells_unchanged_of_shared st h1 _ hvalid hshared h2.ptr hclone]
    rfl
  · show List.lookup key ((unregisterToolArc st h1 name).1.cells.getD h2.ptr []) = _
    rw [unregisterToolArc]
    simp only
    rw [cells_unchanged_of_shared st h1 _ hvalid hshared h2.ptr hclone]
    rfl

/-- Witness for C10 at a concrete shared registry holding tool `f`: a
registration of `g` and an unregistration of `f` through one handle leave
the clone's view unchanged. -/
theorem c10_witness :
    getToolArc
        (registerToolArc ⟨[[("f", ⟨"f", 0⟩)]], [2]⟩ ⟨0⟩ ⟨"g", 1⟩).1 ⟨0⟩ "f" =
      getToolArc ⟨[[("f", ⟨"f", 0⟩)]], [2]⟩ ⟨0⟩ "f" ∧
    getToolArc
        (unregisterToolArc ⟨[[("f", ⟨"f", 0⟩)]], [2]⟩ ⟨0⟩ "f").1 ⟨0⟩ "f" =
      getToolArc ⟨[[("f", ⟨"f", 0⟩)]], [2]⟩ ⟨0⟩ "f" :=
  c10_cow_isolation ⟨[[("f", ⟨"f", 0⟩)]], [2]⟩ ⟨0⟩ ⟨0⟩ ⟨"g", 1⟩ "f" "f" rfl (by decide)
    (by decide)

/-- C1: `register_tool` with an already-registered name does return an
error, but it does NOT leave the registry unchanged: the `insert` runs
before the conflict check, so the new tool has already replaced the
original, and `get_tool` afterwards returns the second tool.  This
contradicts the registry's conflict-rejection contract, so the claim is
right and the code is wrong. -/
theorem c1_failed_register_mutates :
    (ToolRegistry.register_tool ⟨[("fibonacci", ⟨"fibonacci", 0⟩)]⟩ ⟨"fibonacci", 1⟩).2 =
        Except.error "Tool with name 'fibonacci' already registered" ∧
    (ToolRegistry.register_tool ⟨[("fibonacci", ⟨"fibonacci", 0⟩)]⟩
          ⟨"fibonacci", 1⟩).1.get_tool "fibonacci" =
        some ⟨"fibonacci", 1⟩ ∧
    (⟨"fibonacci", 1⟩ : ToolModel) ≠ ⟨"fibonacci", 0⟩ :=
  ⟨rfl, rfl, by decide⟩

/-- C9: the dispatch of `chat_stream` produces exactly one result value
for every call, whatever the outcome: an unregistered name yields the
synthesized not-found envelope and the tool is never invoked (the result
does not depend on any invocation outcome); a tool error yields an
envelope carrying the error message; an elapsed deadline yields an
envelope whose message states the tool timed out after the configured
runtime.  None of these cases escapes: `dispatchToolCall` is total. -/
theorem c9_one_result_per_call (registry : ToolRegistry) (name dur : String)
    (outcome : ToolInvocationOutcome) :
    (registry.get_tool name = none →
      dispatchToolCall registry name dur outcome =
          Json.obj [("error", Json.str ("Tool '" ++ name ++ "' not found"))] ∧
      ∀ o2, dispatchToolCall registry name dur outcome = dispatchToolCall registry name dur o2) ∧
    (∀ e, registry.get_tool name ≠ none →
      outcome = ToolInvocationOutcome.completed (Except.error e) →
      dispatchToolCall registry name dur outcome = Json.obj [("error", Json.str e)]) ∧
    (registry.get_tool name ≠ none → outcome = ToolInvocationOutcome.timedOut →
      dispatchToolCall registry name dur outcome =
        Json.obj
          [("error", Json.str ("Tool '" ++ name ++ "' timed out after " ++ dur))]) := by
  refine ⟨fun hnone => ⟨?_, fun o2 => ?_⟩, fun e hsome hout => ?_, fun hsome hout => ?_⟩
  · simp [dispatchToolCall, hnone]
  · simp [dispatchToolCall, hnone]
  · cases hget : registry.get_tool name with
    | none => exact absurd hget hsome
    | some t => simp [dispatchToolCall, hget, hout]
  · cases hget : registry.get_tool name with
    | none => exact absurd hget hsome
    | some t => simp [dispatchToolCall, hget, hout]

/-- Witness for C9: a missing tool and a timed-out tool at concrete
inputs. -/
theorem c9_witness :
    dispatchToolCall ⟨[]⟩ "fibonacci" "30s" ToolInvocationOutcome.timedOut =
        Json.obj [("error", Json.str "Tool 'fibonacci' not found")] ∧
    dispatchToolCall ⟨[("fibonacci", ⟨"fibonacci", 0⟩)]⟩ "fibonacci" "30s"
        ToolInvocationOutcome.timedOut =
      Json.obj [("error", Json.str "Tool 'fibonacci' timed out after 30s")] :=
  ⟨((c9_one_result_per_call ⟨[]⟩ "fibonacci" "30s" ToolInvocationOutcome.timedOut).1 rfl).1,
    (c9_one_result_per_call ⟨[("fibonacci", ⟨"fibonacci", 0⟩)]⟩ "fibonacci" "30s"
          ToolInvocationOutcome.timedOut).2.2 (by simp [ToolRegistry.get_tool, List.lookup]) rfl⟩

/-- The collection loop keeps, for each id, exactly the first fragment
carrying it (relative to the ids already seen).  Worker lemma for the
deduplication claims. -/
theorem collectToolCalls_filter (fragments : List ToolCall) (st : CollectState) (i : String) :
    (collectToolCalls st fragments).message_tool_calls.filter (fun tc => tc.id == i) =
      st.message_tool_calls.filter (fun tc => tc.id == i) ++
        (if st.seen_tool_call_ids.contains i then []
          else (fragments.filter (fun tc => tc.id == i)).take 1) := by
  induction fragments generalizing st with
  | nil => simp [collectToolCalls]
  | cons tc rest ih =>
    rw [collectToolCalls]
    by_cases hseen : st.seen_tool_call_ids.contains tc.id
    · rw [if_pos hseen, ih]
      by_cases hid : tc.id = i
      · subst hid
        have hmem : tc.id ∈ st.seen_tool_call_ids := by simpa using hseen
        simp [hmem]

      · have : (tc.id == i) = false := by simp [hid]
        simp only [List.filter_cons, this]
        simp
    · rw [if_neg hseen, ih]
      by_cases hid : tc.id = i
      · subst hid
        have hmem : tc.id ∉ st.seen_tool_call_ids := by simpa using hseen
        simp [hmem, List.filter_append]
      · have hne : (tc.id == i) = false := by simp [hid]
        have hcontains : ((tc.id :: st.seen_tool_call_ids).contains i) =
            st.seen_tool_call_ids.contains i := by
          simp [List.contains_cons, Ne.symm hid]
        simp only [List.filter_cons, hne, List.filter_append, hcontains]
        simp [List.filter_append]

/-- C3 as stated is false on the code: for a turn whose fragments repeat
id `call-1`, first with arguments `n = 11` and then with `n = 31`, the
collected (hence dispatched) arguments are those of the FIRST fragment,
not of the final one. -/
theorem c3_counterexample :
    (collectedCalls
          [⟨"call-1", ⟨none, "fibonacci", Json.obj [("n", Json.num 11)]⟩⟩,
            ⟨"call-1", ⟨none, "fibonacci", Json.obj [("n", Json.num 31)]⟩⟩]).map
        (fun tc => tc.function.arguments) =
      [Json.obj [("n", Json.num 11)]] ∧
    Json.obj [("n", Json.num 11)] ≠ Json.obj [("n", Json.num 31)] := by
  refine ⟨rfl, ?_⟩
  intro h
  simp only [Json.obj.injEq, List.cons.injEq, Prod.mk.injEq, Json.num.injEq] at h
  omega

/-- C3, amended: within one turn, deduplication retains the FIRST
occurrence seen for each id; fragments repeating an already-seen id are
ignored, so the arguments dispatched for an id are those of its first
fragment.  Formally, the collected calls carrying id `i` are exactly the
first fragment carrying `i`. -/
theorem c3_dedup_keeps_first (fragments : List ToolCall) (i : String) :
    (collectedCalls fragments).filter (fun tc => tc.id == i) =
      (fragments.filter (fun tc => tc.id == i)).take 1 := by
  have h := collectToolCalls_filter fragments ⟨[], []⟩ i
  simpa [collectedCalls] using h

/-- C7: within one assistant turn, every tool-call id occurs at most once
among the collected calls — so the capability behind it is dispatched at
most once per turn, however often the id repeats across stream chunks
(the dispatch loop only ever consumes calls from this deduplicated
batch). -/
theorem c7_at_most_once_per_id (fragments : List ToolCall) (i : String) :
    (collectedCalls fragments).countP (fun tc => tc.id == i) ≤ 1 := by
  have h := collectToolCalls_filter fragments ⟨[], []⟩ i
  simp only [collectToolCalls, collectedCalls] at h ⊢
  rw [List.countP_eq_length_filter, h]
  simp only [List.filter_nil, List.nil_append, List.contains_nil, if_false,
    Bool.false_eq_true]
  exact List.length_take_le 1 _

/-- C2 as stated is false on the code: with TWO distinct collected calls
(`call-1` and `call-2`, both resolvable), the `done` branch appends
exactly ONE tool-result message — for `call-1` only — and resends;
`call-2` gets no result in this iteration. -/
theorem c2_counterexample :
    ((handleDone [] "calling"
            [⟨"call-1", ⟨none, "fibonacci", Json.obj [("n", Json.num 11)]⟩⟩,
              ⟨"call-2", ⟨none, "fibonacci", Json.obj [("n", Json.num 31)]⟩⟩]
            [("fibonacci", fun _ => Except.ok (Json.num 89))]).1.countP
          isToolCallResult =
        1) ∧
    ((handleDone [] "calling"
            [⟨"call-1", ⟨none, "fibonacci", Json.obj [("n", Json.num 11)]⟩⟩,
              ⟨"call-2", ⟨none, "fibonacci", Json.obj [("n", Json.num 31)]⟩⟩]
            [("fibonacci", fun _ => Except.ok (Json.num 89))]).1.countP
          (fun m =>
            match m with
            | ChatRequestMessageM.ToolCallResult _ _ id => id == "call-2"
            | _ => false) =
        0) ∧
    ("call-1" : String) ≠ "call-2" :=
  ⟨rfl, rfl, by decide⟩

/-- The last element of a list extended by two entries. -/
theorem getLast?_append_pair {α : Type} (l : List α) (a b : α) :
    (l ++ [a, b]).getLast? = some b := by
  rw [show l ++ [a, b] = (l ++ [a]) ++ [b] by simp]
  exact List.getLast?_concat _

/-- C2, amended: when the assistant turn completes with a non-empty
collected batch, the loop appends the assistant message and then
dispatches ONLY the first collected call, appending exactly one
tool-result message (attributed to that first call's name and id), and
resends (the loop flag is set); the remaining collected calls are left to
later iterations. -/
theorem c2_first_call_only (history : List ChatRequestMessageM) (buffer : String)
    (c : ToolCall) (rest : List ToolCall)
    (tool_map : List (String × (Json → Except String Json))) :
    (handleDone history buffer (c :: rest) tool_map).2 = true ∧
    (handleDone history buffer (c :: rest) tool_map).1.length = history.length + 2 ∧
    (handleDone history buffer (c :: rest) tool_map).1.countP isToolCallResult =
      history.countP isToolCallResult + 1 ∧
    ∃ content,
      (handleDone history buffer (c :: rest) tool_map).1.getLast? =
        some (ChatRequestMessageM.ToolCallResult c.function.name content c.id) := by
  rw [handleDone]
  simp only [List.isEmpty_cons, if_false, Bool.false_eq_true]
  rw [dispatchFirstLoop]
  cases hlk : List.lookup c.function.name tool_map with
  | none =>
    simp only [hlk]
    exact
      ⟨trivial, by simp, by simp [List.countP_append, List.countP_cons, isToolCallResult],
        "Tool '" ++ c.function.name ++ "' not found", List.getLast?_concat _⟩
  | some tool =>
    simp only [hlk]
    cases hcall : tool c.function.arguments with
    | ok tool_result =>
      simp only [hcall]
      exact
        ⟨trivial, by simp, by simp [List.countP_append, List.countP_cons, isToolCallResult],
          jsonToString tool_result, List.getLast?_concat _⟩
    | error e =>
      simp only [hcall]
      exact
        ⟨trivial, by simp, by simp [List.countP_append, List.countP_cons, isToolCallResult],
          "Tool invocation error: " ++ e, List.getLast?_concat _⟩

/-- A newline-free byte sequence splits into no complete line and itself
as remainder. -/
theorem splitLines_of_noNewline {s : List Nat} (h : 10 ∉ s) : splitLines s = ([], s) := by
  induction s with
  | nil => rfl
  | cons b bs ih =>
    have hb : ¬ b = 10 := fun e => h (by simp [e])
    have hbs : 10 ∉ bs := fun m => h (List.mem_cons_of_mem _ m)
    rw [splitLines, if_neg hb, ih hbs]
    rfl

/-- The remainder left by `splitLines` contains no newline byte. -/
theorem noNewline_splitLines_rem (s : List Nat) : 10 ∉ (splitLines s).2 := by
  induction s with
  | nil => simp [splitLines]
  | cons b bs ih =>
    by_cases hb : b = 10
    · rw [splitLines, if_pos hb]
      exact ih
    · rw [splitLines, if_neg hb]
      cases hsp : splitLines bs with
      | mk ls rem =>
        have ih' : 10 ∉ rem := by rw [hsp] at ih; exact ih
        cases ls with
        | nil =>
          simp only [consByte]
          intro hmem
          rcases List.mem_cons.mp hmem with h1 | h2
          · exact hb h1.symm
          · exact ih' h2
        | cons l ls' =>
          simpa only [consByte] using ih'

/-- Splitting a concatenation: the lines of `x ++ y` are the complete
lines of `x` followed by the lines obtained after prepending `x`'s
remainder to `y`; the final remainder likewise.  This is the reassembly
property of the buffered decoder. -/
theorem splitLines_append (x y : List Nat) :
    splitLines (x ++ y) =
      ((splitLines x).1 ++ (splitLines ((splitLines x).2 ++ y)).1,
        (splitLines ((splitLines x).2 ++ y)).2) := by
  induction x with
  | nil => simp [splitLines]
  | cons b bs ih =>
    by_cases hb : b = 10
    · subst hb
      rw [List.cons_append, splitLines, if_pos rfl, splitLines, if_pos rfl]
      rw [ih]
      simp
    · rw [List.cons_append, splitLines, if_neg hb, splitLines, if_neg hb]
      cases hsp : splitLines bs with
      | mk ls1 rem1 =>
        rw [hsp] at ih
        cases ls1 with
        | nil =>
          cases hsp2 : splitLines (rem1 ++ y) with
          | mk L2 R2 =>
            simp only [hsp2, List.nil_append] at ih
            rw [ih]
            simp only [consByte, List.nil_append, List.cons_append]
            rw [splitLines, if_neg hb, hsp2]
            simp [consByte]
        | cons l ls' =>
          cases hsp2 : splitLines (rem1 ++ y) with
          | mk L2 R2 =>
            simp only [hsp2] at ih
            rw [ih]
            simp [consByte, hsp2]

/-- Incremental chunked processing equals one-shot processing of the
concatenated bytes, for any newline-free starting buffer: the central
decomposition lemma behind chunk-boundary independence and the terminal
flush property. -/
theorem runChunks_eq_runAll {E : Type} (le fe : List Nat → Option E)
    (chunks : List (List Nat)) (buf : List Nat) (hbuf : 10 ∉ buf) :
    runChunks le fe buf chunks = runAll le fe (buf ++ chunks.flatten) := by
  induction chunks generalizing buf with
  | nil =>
    rw [runChunks, runAll]
    rw [List.flatten_nil, List.append_nil, splitLines_of_noNewline hbuf]
    simp
  | cons c cs ih =>
    have hassoc : buf ++ (c :: cs).flatten = (buf ++ c) ++ cs.flatten := by
      rw [List.flatten_cons, List.append_assoc]
    rw [runChunks, ih _ (noNewline_splitLines_rem _), runAll, runAll, hassoc,
      splitLines_append (buf ++ c) cs.flatten]
    simp [List.filterMap_append, List.append_assoc]

/-- C4: the event sequence produced by the streaming parser does not
depend on how the same byte sequence is split into chunks — two chunkings
with equal concatenations yield exactly the same events, for any line
classifier and any flush handler (in particular a line split across
several chunks is reassembled as if it had arrived whole). -/
theorem c4_chunk_boundary_independence {E : Type}
    (lineEvent flushEvent : List Nat → Option E) (chunks1 chunks2 : List (List Nat))
    (h : chunks1.flatten = chunks2.flatten) :
    runChunks lineEvent flushEvent [] chunks1 = runChunks lineEvent flushEvent [] chunks2 := by
  rw [runChunks_eq_runAll lineEvent flushEvent chunks1 [] (by simp),
    runChunks_eq_runAll lineEvent flushEvent chunks2 [] (by simp)]
  rw [List.nil_append, List.nil_append, h]

/-- Witness for C4: the bytes of `"ab\nc"` chunked as
`["ab", "\nc"]` versus `["a", "b\n", "c"]` produce the same chat events. -/
theorem c4_witness :
    ([[97, 98], [10, 99]] : List (List Nat)).flatten =
        ([[97], [98, 10], [99]] : List (List Nat)).flatten ∧
    runChunks chatLineEvent chatFlushEvent [] [[97, 98], [10, 99]] =
      runChunks chatLineEvent chatFlushEvent [] [[97], [98, 10], [99]] :=
  ⟨by decide,
    c4_chunk_boundary_independence chatLineEvent chatFlushEvent [[97, 98], [10, 99]]
      [[97], [98, 10], [99]] (by decide)⟩

/-- C6: for every chunked input, the drained chat event sequence is the
classified complete lines followed by exactly one terminal `Partial`
carrying the (untrimmed) residual text after the last newline when that
residue is non-blank, and by nothing when it is blank — the residue is
neither dropped nor duplicated. -/
theorem c6_terminal_flush (chunks : List (List Nat)) :
    runChunks chatLineEvent chatFlushEvent [] chunks =
      (splitLines chunks.flatten).1.filterMap chatLineEvent ++
        (if (strTrim (utf8Lossy (splitLines chunks.flatten).2)).isEmpty then []
          else [ChatStreamEvent.Partial (utf8Lossy (splitLines chunks.flatten).2) none]) := by
  rw [runChunks_eq_runAll chatLineEvent chatFlushEvent chunks [] (by simp)]
  rw [List.nil_append, runAll]
  congr 1
  by_cases hrem : (splitLines chunks.flatten).2.isEmpty
  · have hnil : (splitLines chunks.flatten).2 = [] := by simpa using hrem
    rw [if_pos hrem, hnil]
    have hempty : (strTrim (utf8Lossy [])).isEmpty = true := rfl
    rw [hempty]
    simp
  · rw [if_neg hrem, chatFlushEvent]
    by_cases hblank : (strTrim (utf8Lossy (splitLines chunks.flatten).2)).isEmpty
    · simp [hblank]
    · simp [hblank]

/-- C5: classification of a decoded line follows the three-step fallback
chain exactly, and is total (no line aborts the stream): a successful
payload decode yields `Message`; a payload failure whose line decodes as
the error envelope yields `Error` with the envelope's string, never
`Partial`; a double failure yields `Partial` carrying the line verbatim
together with the payload (first) decode failure's description. -/
theorem c5_fallback_chain (line_str : String) :
    (∀ msg, decodeChatResponseLine line_str = Except.ok msg →
      classifyLine line_str = ChatStreamEvent.Message msg) ∧
    (∀ e_msg err, decodeChatResponseLine line_str = Except.error e_msg →
      decodeOllamaErrorLine line_str = Except.ok err →
      classifyLine line_str = ChatStreamEvent.Error err.error) ∧
    (∀ e_msg e2, decodeChatResponseLine line_str = Except.error e_msg →
      decodeOllamaErrorLine line_str = Except.error e2 →
      classifyLine line_str = ChatStreamEvent.Partial line_str (some e_msg)) := by
  refine ⟨fun msg h1 => ?_, fun e_msg err h1 h2 => ?_, fun e_msg e2 h1 h2 => ?_⟩
  · simp [classifyLine, h1]
  · simp [classifyLine, h1, h2]
  · simp [classifyLine, h1, h2]

/-- Witness for C5: the error-envelope line of the spec's Scenario C
fails the payload decode (no `model` field) but matches the envelope, so
it classifies as `Error "boom"`. -/
theorem c5_witness :
    classifyLine "\x7b\"error\":\"boom\"\x7d" = ChatStreamEvent.Error "boom" :=
  (c5_fallback_chain "\x7b\"error\":\"boom\"\x7d").2.1 "missing field model" ⟨"boom"⟩ rfl rfl

/-- C8's impossibility part is false on the code: `serde` ignores unknown
fields, so a line carrying all of `ChatResponse`'s required fields AND an
`error` field decodes successfully as BOTH the expected payload type and
the error envelope. -/
theorem c8_counterexample :
    decodeChatResponseLine
        "\x7b\"model\":\"m\",\"message\":\x7b\"role\":\"assistant\",\"content\":\"hi\"\x7d,\"done\":false,\"error\":\"boom\"\x7d" =
      Except.ok ⟨"m", "", ⟨Role.Assistant, "hi", "", []⟩, false⟩ ∧
    decodeOllamaErrorLine
        "\x7b\"model\":\"m\",\"message\":\x7b\"role\":\"assistant\",\"content\":\"hi\"\x7d,\"done\":false,\"error\":\"boom\"\x7d" =
      Except.ok ⟨"boom"⟩ :=
  ⟨rfl, rfl⟩

/-- C8, amended: a line may decode as both the expected payload and the
error envelope; what the code guarantees is that the primary payload
decode is attempted first and wins — whenever the payload decode
succeeds, classification yields `Message`, never `Error`. -/
theorem c8_primary_decode_wins (line_str : String) (msg : ChatResponse)
    (h : decodeChatResponseLine line_str = Except.ok msg) :
    classifyLine line_str = ChatStreamEvent.Message msg := by
  simp [classifyLine, h]

/-- Witness for C8's amended claim at the double-decoding line: it
classifies as `Message`. -/
theorem c8_witness :
    classifyLine
        "\x7b\"model\":\"m\",\"message\":\x7b\"role\":\"assistant\",\"content\":\"hi\"\x7d,\"done\":false,\"error\":\"boom\"\x7d" =
      ChatStreamEvent.Message ⟨"m", "", ⟨Role.Assistant, "hi", "", []⟩, false⟩ :=
  c8_primary_decode_wins _ _ rfl

end OllamaSpec
